import Mathlib

/-!
Verification of the paginated listing feed of the Handdown frontend.

The model below is a shallow embedding of the feed logic of
src/app/(tabs)/index.tsx (LandingScreen): the component state
(listings, loading, hasMore, lastTime), the query builder createQuery,
the fetch routine fetchListings split at its single suspension point
(the network call) into a synchronous start phase and a completion
phase, and the handlers loadMore and onRefresh.  The thumbnail
selection inside fetchListings (shared verbatim with
fetchProfileListings in src/app/Your_Listings.tsx) is embedded as
sortImages and thumbnailFromImages.
-/

namespace Handdown

/-- One element of the listing_images array: { position, image_url }. -/
structure ListingImage where
  position : Int
  image_url : String
deriving DecidableEq, Repr

/-- The ApiListing shape of one element of data.listings in the backend
response, as declared inside fetchListings. -/
structure ApiListing where
  listing_id : String
  offering_uid : String
  listing_type_id : Int
  title : String
  description : Option String
  price : Int
  time_created : String
  time_updated : String
  region_id : Int
  condition : String
  listing_images : Option (List ListingImage)
deriving DecidableEq, Repr

/-- The Listing interface of the screen (the display entity). -/
structure Listing where
  id : String
  price : String
  title : String
  thumbnail_url : String
  offering_uid : String
  description : String
  listing_type_id : Int
  time_updated : String
  region_id : Int
  condition : String
  listing_images : Option (List ListingImage)
deriving DecidableEq, Repr

/-- Insertion step of a stable sort by ascending position.  The source
sorts with the comparator (a, b) => a.position - b.position via the
JavaScript Array sort, which is stable: elements whose positions compare
equal keep their original relative order.  Inserting x before the first
element whose position is at least the position of x realises exactly
that order. -/
def insertByPosition (x : ListingImage) : List ListingImage → List ListingImage
  | [] => [x]
  | y :: ys => if x.position ≤ y.position then x :: y :: ys else y :: insertByPosition x ys

/-- Stable sort of listing_images by ascending position, embedding
the expression spread-copy followed by sort with the numeric comparator
in fetchListings. -/
def sortImages : List ListingImage → List ListingImage
  | [] => []
  | x :: xs => insertByPosition x (sortImages xs)

/-- Thumbnail selection of fetchListings: sortedImages is the stable
sort of listing_images when that field is non-null; the thumbnail is
the image_url of its first element when it exists, and the empty
string otherwise. -/
def thumbnailFromImages : Option (List ListingImage) → String
  | none => ""
  | some imgs =>
    match sortImages imgs with
    | [] => ""
    | first :: _ => first.image_url

/-- The per-item mapping of fetchListings from ApiListing to Listing:
price is rendered as a dollar string, description defaults to the empty
string, and thumbnail_url is the selected thumbnail. -/
def mapListing (item : ApiListing) : Listing :=
  { id := item.listing_id
    price := "$" ++ toString item.price
    title := item.title
    thumbnail_url := thumbnailFromImages item.listing_images
    description := item.description.getD ""
    listing_type_id := item.listing_type_id
    time_updated := item.time_updated
    region_id := item.region_id
    condition := item.condition
    listing_images := item.listing_images
    offering_uid := item.offering_uid }

/-- The query object built by createQuery: schema_name, limit, filters
(always empty, omitted here) and an optional last_time. -/
structure ListingQuery where
  schema_name : String
  limit : Nat
  last_time : Option String
deriving DecidableEq, Repr

/-- createQuery of the screen.  The source guards the cursor with
if (last_time), a JavaScript truthiness test: the field is added only
when last_time is neither null nor the empty string. -/
def createQuery (last_time : Option String) : ListingQuery :=
  { schema_name := "ucberkeley"
    limit := 12
    last_time :=
      match last_time with
      | some t => if t = "" then none else some t
      | none => none }

/-- The component state of LandingScreen: the four useState cells
listings, loading, hasMore and lastTime. -/
structure FeedState where
  listings : List Listing
  loading : Bool
  hasMore : Bool
  lastTime : Option String
deriving DecidableEq, Repr

/-- A network request in flight: the query string sent to the backend
and the append flag captured by the fetchListings call. -/
structure PendingRequest where
  query : ListingQuery
  append : Bool
deriving DecidableEq, Repr

/-- Outcome of the awaited network call, as the code distinguishes it:
the fetch itself rejects, res.ok is false (the code throws an HTTP
error), res.json() rejects, or a JSON body is obtained whose listings
field may be absent or null (the code reads data.listings ?? []). -/
inductive FetchOutcome where
  | networkError
  | httpNotOk (status : Nat)
  | invalidJson
  | success (listings : Option (List ApiListing))
deriving DecidableEq, Repr

/-- The synchronous prefix of fetchListings up to the await of the
network call: if loading is true it returns at once issuing no request;
otherwise it sets loading and issues the request built from the
last_time argument and the append flag. -/
def fetchStart (s : FeedState) (last_time : Option String) (append : Bool) :
    FeedState × Option PendingRequest :=
  if s.loading then (s, none)
  else ({ s with loading := true }, some { query := createQuery last_time, append := append })

/-- The continuation of fetchListings after the network call resolves.
On success it maps the page, sets hasMore to (length === 12), appends or
replaces listings according to the append flag, and updates lastTime
from the last mapped item when the page is non-empty.  On any of the
three failures control reaches the catch block, which only logs with
console.error; no error value reaches the caller, so the surfaced-error
component is none on every path.  The finally block clears loading on
every path. -/
def fetchComplete (s : FeedState) (req : PendingRequest) (outcome : FetchOutcome) :
    FeedState × Option String :=
  match outcome with
  | .success optListings =>
    let mapped := (optListings.getD []).map mapListing
    let s1 := { s with hasMore := mapped.length == 12 }
    let s2 :=
      if req.append then { s1 with listings := s1.listings ++ mapped }
      else { s1 with listings := mapped }
    let s3 :=
      match mapped.getLast? with
      | some lastListing => { s2 with lastTime := some lastListing.time_updated }
      | none => s2
    ({ s3 with loading := false }, none)
  | _ => ({ s with loading := false }, none)

/-- The loadMore handler of the infinite scroll: it calls
fetchListings(lastTime, true) only when hasMore holds and loading does
not; otherwise nothing happens. -/
def loadMore (s : FeedState) : FeedState × Option PendingRequest :=
  if s.hasMore && !s.loading then fetchStart s s.lastTime true else (s, none)

/-- The onRefresh handler of the FlatList: setLastTime(null),
setHasMore(true), then fetchListings(null, false). -/
def onRefresh (s : FeedState) : FeedState × Option PendingRequest :=
  fetchStart { s with lastTime := none, hasMore := true } none false

/-- The initial load issued by the mount effect:
fetchListings(null, false). -/
def initialLoad (s : FeedState) : FeedState × Option PendingRequest :=
  fetchStart s none false

/-- The initial component state: listings [], loading false,
hasMore true, lastTime null. -/
def initialState : FeedState :=
  { listings := [], loading := false, hasMore := true, lastTime := none }

/-- Fixture: an ApiListing with a given identifier and update time and no
images. -/
def mkApi (ident : String) (t : String) : ApiListing :=
  { listing_id := ident, offering_uid := "u", listing_type_id := 1, title := "title",
    description := none, price := 3, time_created := "c", time_updated := t,
    region_id := 1, condition := "good", listing_images := none }

/-- Fixture: the thirteen-item page used against claim C3. -/
def page13 : List ApiListing :=
  (List.range 13).map (fun n => mkApi (toString n) "t")

/-- Fixture: two listings with distinct identifiers. -/
def apiA : ApiListing := mkApi "1" "tA"

/-- Fixture: the second of the two listings. -/
def apiB : ApiListing := mkApi "2" "tB"

/-- Fixture: a feed state whose accumulated listings already contain the
mapped apiA, with a next-page request in flight. -/
def overlapState : FeedState :=
  { listings := [mapListing apiA], loading := true, hasMore := true, lastTime := some "tA" }

/-- Claim C4: when loading is true or hasMore is false, the loadMore
handler is a no-op: it issues no network request and leaves listings,
lastTime, hasMore and loading unchanged. -/
theorem loadMore_noop_when_loading_or_exhausted (s : FeedState)
    (h : s.loading = true ∨ s.hasMore = false) : loadMore s = (s, none) := by
  rcases h with h | h <;> simp [loadMore, h]

/-- Witness for claim C4 at a concrete loading state. -/
theorem loadMore_noop_witness :
    loadMore { listings := [], loading := true, hasMore := true, lastTime := none } =
      ({ listings := [], loading := true, hasMore := true, lastTime := none }, none) :=
  loadMore_noop_when_loading_or_exhausted _ (Or.inl rfl)

/-- Claim C3 counterexample: a successful page of 13 items sets hasMore
to false (exhausted true) although the page does not contain fewer than
12 items, so exhaustion does not hold exactly when the count is below
the page size. -/
theorem exhausted_despite_full_page :
    ((fetchComplete initialState { query := createQuery none, append := false }
        (.success (some page13))).1.hasMore = false) ∧ ¬ (page13.length < 12) := by
  exact ⟨rfl, by decide⟩

/-- Claim C3 amended: after every successful page fetch, hasMore holds
exactly when the returned page has exactly 12 items; equivalently
exhaustion is set exactly when the count differs from 12, which for
pages of at most 12 items coincides with the count being below 12, and
a page of exactly 12 items leaves hasMore true. -/
theorem hasMore_iff_page_length_eq_12 (s : FeedState) (req : PendingRequest)
    (l : List ApiListing) :
    ((fetchComplete s req (.success (some l))).1.hasMore = true) ↔ l.length = 12 := by
  cases hreq : req.append <;>
    cases hlast : (l.map mapListing).getLast? <;>
      simp [fetchComplete, hreq, hlast]

/-- Claim C1 counterexample: completing an append-mode fetch whose
incoming page repeats the identifier 1 already present in the
accumulated listings yields the identifier sequence 1, 1, 2: the
overlapping incoming item is kept, so the merged feed holds a duplicate
identifier. -/
theorem append_keeps_duplicate_identifiers :
    ((fetchComplete overlapState { query := createQuery (some "tA"), append := true }
        (.success (some [apiA, apiB]))).1.listings.map Listing.id = ["1", "1", "2"]) ∧
    ¬ ((fetchComplete overlapState { query := createQuery (some "tA"), append := true }
        (.success (some [apiA, apiB]))).1.listings.map Listing.id).Nodup := by
  exact ⟨rfl, by decide⟩

/-- Claim C1 amended: append mode concatenates the existing listings
with the whole mapped incoming page, with no identifier-based
filtering, so incoming items whose identifiers already occur in the
accumulated list are appended again. -/
theorem append_concatenates_unfiltered (s : FeedState) (req : PendingRequest)
    (optListings : Option (List ApiListing)) (h : req.append = true) :
    (fetchComplete s req (.success optListings)).1.listings =
      s.listings ++ (optListings.getD []).map mapListing := by
  cases hlast : ((optListings.getD []).map mapListing).getLast? <;>
    simp [fetchComplete, h, hlast]

/-- Witness for the amended claim C1 at the overlapping concrete page. -/
theorem append_concatenates_unfiltered_witness :
    (fetchComplete overlapState { query := createQuery (some "tA"), append := true }
        (.success (some [apiA, apiB]))).1.listings =
      overlapState.listings ++ ([apiA, apiB].map mapListing) :=
  append_concatenates_unfiltered _ _ _ rfl

/-- Fixture: a twelve-item page whose last item carries update time T1. -/
def page12 : List ApiListing :=
  (List.range 11).map (fun n => mkApi (toString n) "t") ++ [mkApi "11" "T1"]

/-- Fixture: a five-item page. -/
def page5 : List ApiListing :=
  (List.range 5).map (fun n => mkApi ("x" ++ toString n) "T2")

/-- Trace state for claim C7: the mount effect issues the first fetch. -/
def c7s1 : FeedState × Option PendingRequest := initialLoad initialState

/-- Trace state for claim C7: the first page of 12 items is applied. -/
def c7s2 : FeedState :=
  (fetchComplete c7s1.1 { query := createQuery none, append := false }
      (.success (some page12))).1

/-- Trace state for claim C7: the scroll handler issues the second fetch. -/
def c7s3 : FeedState × Option PendingRequest := loadMore c7s2

/-- Trace state for claim C7: the second page of 5 items is applied. -/
def c7s4 : FeedState :=
  (fetchComplete c7s3.1 { query := createQuery (some "T1"), append := true }
      (.success (some page5))).1

/-- Claim C7: with page size 12, a first fetch returning 12 items whose
last update time is T1 leaves hasMore true and cursor T1; the second
fetch is sent with cursor T1 and, returning 5 items, leaves hasMore
false and 17 accumulated listings; a third loadMore call issues no
request and changes nothing. -/
theorem pagination_scenario :
    c7s1.2 = some { query := createQuery none, append := false } ∧
    c7s2.hasMore = true ∧
    c7s2.lastTime = some "T1" ∧
    c7s2.listings.length = 12 ∧
    c7s3.2 = some { query := createQuery (some "T1"), append := true } ∧
    (createQuery (some "T1")).last_time = some "T1" ∧
    c7s4.hasMore = false ∧
    c7s4.listings.length = 17 ∧
    loadMore c7s4 = (c7s4, none) := by
  exact ⟨rfl, rfl, rfl, rfl, rfl, rfl, rfl, rfl, rfl⟩

/-- Fixture: a quiescent state holding one listing, no request in
flight. -/
def loadedState : FeedState :=
  { listings := [mapListing apiA], loading := false, hasMore := false, lastTime := some "tA" }

/-- Claim C9: a refresh on a quiescent state clears the cursor, clears
exhaustion, issues a request whose query carries no cursor, and the
resulting page replaces the accumulated listings. -/
theorem refresh_resets (s : FeedState) (h : s.loading = false) :
    (onRefresh s).1.lastTime = none ∧
    (onRefresh s).1.hasMore = true ∧
    (onRefresh s).2 = some { query := createQuery none, append := false } ∧
    (createQuery none).last_time = none ∧
    ∀ l : List ApiListing,
      (fetchComplete (onRefresh s).1 { query := createQuery none, append := false }
          (.success (some l))).1.listings = l.map mapListing := by
  refine ⟨?_, ?_, ?_, rfl, ?_⟩
  · simp [onRefresh, fetchStart, h]
  · simp [onRefresh, fetchStart, h]
  · simp [onRefresh, fetchStart, h]
  · intro l
    cases hlast : (l.map mapListing).getLast? <;> simp [fetchComplete, hlast]

/-- Witness for claim C9 at a concrete quiescent state and one-item
page. -/
theorem refresh_resets_witness :
    (onRefresh loadedState).2 = some { query := createQuery none, append := false } ∧
    (fetchComplete (onRefresh loadedState).1 { query := createQuery none, append := false }
        (.success (some [apiB]))).1.listings = [apiB].map mapListing :=
  ⟨(refresh_resets loadedState rfl).2.2.1, (refresh_resets loadedState rfl).2.2.2.2 [apiB]⟩

/-- Claim C10 counterexample: a successful zero-item page completing a
replace-mode fetch empties the accumulated listings rather than
leaving them unchanged, while still setting hasMore false and keeping
the cursor. -/
theorem empty_page_replaces_items :
    ((fetchComplete overlapState { query := createQuery none, append := false }
        (.success (some []))).1.listings = []) ∧
    overlapState.listings ≠ [] ∧
    ((fetchComplete overlapState { query := createQuery none, append := false }
        (.success (some []))).1.hasMore = false) ∧
    ((fetchComplete overlapState { query := createQuery none, append := false }
        (.success (some []))).1.lastTime = overlapState.lastTime) := by
  exact ⟨rfl, by decide, rfl, rfl⟩

/-- Claim C10 amended: a successful zero-item page sets hasMore false
and leaves the cursor unchanged in both modes; the accumulated listings
are unchanged in append mode but replaced by the empty list in replace
mode. -/
theorem empty_page_outcome (s : FeedState) (req : PendingRequest) :
    ((fetchComplete s req (.success (some []))).1.hasMore = false) ∧
    ((fetchComplete s req (.success (some []))).1.lastTime = s.lastTime) ∧
    (req.append = true → (fetchComplete s req (.success (some []))).1.listings = s.listings) ∧
    (req.append = false → (fetchComplete s req (.success (some []))).1.listings = []) := by
  cases hreq : req.append <;> simp [fetchComplete, hreq]

/-- Witness for the amended claim C10 at a concrete append-mode
request. -/
theorem empty_page_outcome_witness :
    (fetchComplete overlapState { query := createQuery (some "tA"), append := true }
        (.success (some []))).1.listings = overlapState.listings :=
  (empty_page_outcome overlapState { query := createQuery (some "tA"), append := true }).2.2.1 rfl

/-- Fixture: a twelve-item page whose last item carries the
empty-string update time. -/
def page12e : List ApiListing :=
  (List.range 11).map (fun n => mkApi (toString n) "t") ++ [mkApi "11" ""]

/-- Trace state for claim C8: the page12e page applied to a fresh
first-page fetch. -/
def c8state : FeedState :=
  (fetchComplete { listings := [], loading := true, hasMore := true, lastTime := none }
      { query := createQuery none, append := false } (.success (some page12e))).1

/-- Claim C8 counterexample: after a successful non-empty page whose
last item carries the empty-string update time, the stored cursor is
the empty string, yet the next request drops the cursor entirely:
createQuery tests the cursor for JavaScript truthiness, so the
empty-string cursor is not passed back verbatim. -/
theorem empty_cursor_not_verbatim :
    c8state.lastTime = some "" ∧
    (loadMore c8state).2 = some { query := createQuery (some ""), append := true } ∧
    (createQuery (some "")).last_time = none ∧
    ¬ ((createQuery (some "")).last_time = some "") := by
  exact ⟨rfl, rfl, rfl, by decide⟩

/-- Claim C8 amended: after a successful non-empty page the stored
cursor equals the update time of the last item of that page, and a
non-empty cursor is included verbatim in the next query; an
empty-string cursor is treated like an absent one and dropped from the
query. -/
theorem cursor_from_last_item (s : FeedState) (req : PendingRequest)
    (l : List ApiListing) (x : ApiListing) (hx : l.getLast? = some x)
    (t : String) (ht : ¬ (t = "")) :
    (fetchComplete s req (.success (some l))).1.lastTime = some x.time_updated ∧
    (createQuery (some t)).last_time = some t := by
  constructor
  · cases hreq : req.append <;>
      simp [fetchComplete, hreq, List.getLast?_map, hx, mapListing]
  · simp [createQuery, ht]

/-- Witness for the amended claim C8 at a concrete one-item page and
the concrete cursor tA. -/
theorem cursor_from_last_item_witness :
    (fetchComplete initialState { query := createQuery none, append := false }
        (.success (some [apiA]))).1.lastTime = some apiA.time_updated ∧
    (createQuery (some "tA")).last_time = some "tA" :=
  cursor_from_last_item initialState { query := createQuery none, append := false }
    [apiA] apiA rfl "tA" (by decide)

/-- Fixture: a quiescent state holding one listing with more pages
available. -/
def c2s0 : FeedState :=
  { listings := [mapListing apiA], loading := false, hasMore := true, lastTime := some "tA" }

/-- Trace for claim C2: the next-page request taken out by loadMore. -/
def c2req : PendingRequest := { query := createQuery (some "tA"), append := true }

/-- Trace for claim C2: state after loadMore takes out c2req. -/
def c2s1 : FeedState := (loadMore c2s0).1

/-- Trace for claim C2: a refresh arrives while c2req is pending. -/
def c2s2 : FeedState × Option PendingRequest := onRefresh c2s1

/-- Trace for claim C2: the pending (now stale) response arrives after
the refresh and is applied. -/
def c2final : FeedState := (fetchComplete c2s2.1 c2req (.success (some [apiB]))).1

/-- Claim C2 counterexample: a refresh issued while an earlier request
is pending issues no request of its own (so no newer request exists and
nothing carries a sequence number), and when the earlier response
arrives it is applied in full: the stale page is appended to the
pre-refresh listings and the cursor is taken from the stale page, so
the stale result is not discarded and the state does not reflect a
refresh result. -/
theorem stale_result_not_discarded :
    (loadMore c2s0).2 = some c2req ∧
    c2s2.2 = none ∧
    c2final.listings = [mapListing apiA, mapListing apiB] ∧
    c2final.listings ≠ [] ∧
    c2final.lastTime = some "tB" := by
  exact ⟨rfl, rfl, rfl, by decide, rfl⟩

/-- Claim C2 amended: there is no request sequence number and no
discarding of stale results; instead fetchListings rejects any call
made while loading is true, so a refresh issued while a next-page
request is pending clears the cursor and exhaustion but issues no
request, and when the pending response later arrives its result is
applied in full, appended to the pre-refresh listings. -/
theorem refresh_while_pending_drops_refresh (s : FeedState) (p : List ApiListing)
    (hl : s.loading = false) (hm : s.hasMore = true) :
    (loadMore s).2 = some { query := createQuery s.lastTime, append := true } ∧
    (onRefresh (loadMore s).1).2 = none ∧
    (fetchComplete (onRefresh (loadMore s).1).1
        { query := createQuery s.lastTime, append := true }
        (.success (some p))).1.listings = s.listings ++ p.map mapListing := by
  have hstart : loadMore s =
      ({ s with loading := true }, some { query := createQuery s.lastTime, append := true }) := by
    simp [loadMore, fetchStart, hl, hm]
  have hrefresh : onRefresh { s with loading := true } =
      ({ s with loading := true, lastTime := none, hasMore := true }, none) := by
    simp [onRefresh, fetchStart]
  refine ⟨by rw [hstart], by rw [hstart, hrefresh], ?_⟩
  rw [hstart, hrefresh]
  cases hlast : (p.map mapListing).getLast? <;> simp [fetchComplete, hlast]

/-- Witness for the amended claim C2 at the concrete state c2s0 and
one-item page. -/
theorem refresh_while_pending_drops_refresh_witness :
    (loadMore c2s0).2 = some { query := createQuery c2s0.lastTime, append := true } ∧
    (onRefresh (loadMore c2s0).1).2 = none ∧
    (fetchComplete (onRefresh (loadMore c2s0).1).1
        { query := createQuery c2s0.lastTime, append := true }
        (.success (some [apiB]))).1.listings = c2s0.listings ++ [apiB].map mapListing :=
  refresh_while_pending_drops_refresh c2s0 [apiB] rfl rfl

/-- Claim C6 counterexample, two facets.  First, a well-formed JSON
body missing the listings field is not treated as a failure: it is
processed as an empty page, flipping hasMore from true to false and
replacing the accumulated listings, so the state is not left as it was.
Second, a genuine failure (HTTP status 500) surfaces no error to the
caller: the catch block only logs to the console. -/
theorem failed_fetch_claim_fails :
    ((fetchComplete overlapState { query := createQuery none, append := false }
        (.success none)).1.hasMore = false) ∧
    overlapState.hasMore = true ∧
    ((fetchComplete overlapState { query := createQuery none, append := false }
        (.success none)).1.listings = []) ∧
    overlapState.listings ≠ [] ∧
    ((fetchComplete overlapState { query := createQuery none, append := false }
        (.httpNotOk 500)).2 = none) := by
  exact ⟨rfl, rfl, rfl, by decide, rfl⟩

/-- Claim C6 amended: on a network failure, a non-success HTTP status,
or a JSON parse failure, the operation leaves listings, lastTime and
hasMore unchanged, sets loading false and applies nothing of the page;
no error value is surfaced to the caller, the catch block only logging
to the console.  A well-formed JSON body missing the listings field is
not treated as a failure at all: it is processed as an empty page. -/
theorem failed_fetch_preserves_state (s : FeedState) (req : PendingRequest)
    (outcome : FetchOutcome)
    (h : outcome = .networkError ∨ (∃ st, outcome = .httpNotOk st) ∨ outcome = .invalidJson) :
    fetchComplete s req outcome = ({ s with loading := false }, none) := by
  rcases h with h | ⟨st, h⟩ | h <;> subst h <;> rfl

/-- Witness for the amended claim C6 at a concrete network failure. -/
theorem failed_fetch_preserves_state_witness :
    fetchComplete overlapState { query := createQuery none, append := false } .networkError =
      ({ overlapState with loading := false }, none) :=
  failed_fetch_preserves_state overlapState
    { query := createQuery none, append := false } .networkError (Or.inl rfl)

/-- Helper for claim C5: the head of the stable sort is the first
element of the original list attaining the minimal position: the list
splits as a prefix of strictly larger positions, the selected element,
and a remainder, with the selected position at most every position in
the list. -/
theorem sortImages_head_spec :
    ∀ imgs : List ListingImage, imgs ≠ [] →
      ∃ l₁ m l₂, imgs = l₁ ++ m :: l₂ ∧ (sortImages imgs).head? = some m ∧
        (∀ y ∈ imgs, m.position ≤ y.position) ∧ (∀ y ∈ l₁, m.position < y.position) := by
  intro imgs
  induction imgs with
  | nil => intro h; exact absurd rfl h
  | cons x xs ih =>
    intro _
    rcases eq_or_ne xs [] with hxs | hxs
    · subst hxs
      refine ⟨[], x, [], rfl, rfl, ?_, by simp⟩
      intro y hy
      rw [List.mem_singleton] at hy
      subst hy
      exact le_refl _
    · obtain ⟨l₁, m, l₂, hsplit, hhead, hmin, hpref⟩ := ih hxs
      obtain ⟨t, ht⟩ : ∃ t, sortImages xs = m :: t := by
        cases hs : sortImages xs with
        | nil => rw [hs] at hhead; simp at hhead
        | cons a t =>
          rw [hs] at hhead
          simp only [List.head?_cons, Option.some.injEq] at hhead
          exact ⟨t, by rw [hhead]⟩
      by_cases hxm : x.position ≤ m.position
      · refine ⟨[], x, xs, rfl, ?_, ?_, by simp⟩
        · simp only [sortImages, ht, insertByPosition, if_pos hxm, List.head?_cons]
        · intro y hy
          rcases List.mem_cons.mp hy with h | h
          · subst h; exact le_refl _
          · exact le_trans hxm (hmin y h)
      · push_neg at hxm
        refine ⟨x :: l₁, m, l₂, by rw [hsplit]; rfl, ?_, ?_, ?_⟩
        · simp only [sortImages, ht, insertByPosition, if_neg (not_le.mpr hxm), List.head?_cons]
        · intro y hy
          rcases List.mem_cons.mp hy with h | h
          · subst h; exact le_of_lt hxm
          · exact hmin y h
        · intro y hy
          rcases List.mem_cons.mp hy with h | h
          · subst h; exact hxm
          · exact hpref y h

/-- Claim C5: thumbnail selection returns the empty string on an
absent or empty image set and never fails; on a non-empty image set it
returns the url of the image whose position is numerically smallest,
ties resolved to the earliest in the original relative order: the
selected image m splits the set as a prefix, m and a remainder, with
the position of m at most every position in the set and strictly below
every position in the prefix. -/
theorem thumbnail_first_minimal_position :
    thumbnailFromImages none = "" ∧
    thumbnailFromImages (some []) = "" ∧
    ∀ imgs : List ListingImage, imgs ≠ [] →
      ∃ l₁ m l₂, imgs = l₁ ++ m :: l₂ ∧
        thumbnailFromImages (some imgs) = m.image_url ∧
        (∀ y ∈ imgs, m.position ≤ y.position) ∧
        (∀ y ∈ l₁, m.position < y.position) := by
  refine ⟨rfl, rfl, ?_⟩
  intro imgs h
  obtain ⟨l₁, m, l₂, hsplit, hhead, hmin, hpref⟩ := sortImages_head_spec imgs h
  refine ⟨l₁, m, l₂, hsplit, ?_, hmin, hpref⟩
  cases hs : sortImages imgs with
  | nil => rw [hs] at hhead; simp at hhead
  | cons a t =>
    rw [hs] at hhead
    simp only [List.head?_cons, Option.some.injEq] at hhead
    subst hhead
    simp [thumbnailFromImages, hs]

/-- Witness for claim C5 at the image set of the spec scenario, where
position 2 carries url b and position 0 carries url a. -/
theorem thumbnail_first_minimal_position_witness :
    thumbnailFromImages (some [⟨2, "b"⟩, ⟨0, "a"⟩]) = "a" ∧
    (∃ l₁ m l₂, ([⟨2, "b"⟩, ⟨0, "a"⟩] : List ListingImage) = l₁ ++ m :: l₂ ∧
      thumbnailFromImages (some [⟨2, "b"⟩, ⟨0, "a"⟩]) = m.image_url ∧
      (∀ y ∈ ([⟨2, "b"⟩, ⟨0, "a"⟩] : List ListingImage), m.position ≤ y.position) ∧
      (∀ y ∈ l₁, m.position < y.position)) :=
  ⟨rfl, thumbnail_first_minimal_position.2.2 [⟨2, "b"⟩, ⟨0, "a"⟩] (by decide)⟩

end Handdown
